import Mathlib

/-
Verification development for libsai (src/libsai/sai.hpp): the checksum
primitive, the page-table/data-page layout, the paged-stream logical-to-
physical mapping, file-entry cursored reads, and the visitor traversal.

The repository ships only the header `sai.hpp`: structure layouts, enums
and member declarations are taken directly from it; member-function bodies
that the header declares but does not define are modelled from the spec
(each such definition carries a doc comment saying so).

Machine integers are modelled as `Nat` with explicit reduction modulo
`2 ^ 32` where 32-bit overflow matters.
-/

set_option maxRecDepth 100000

/-! ## Checksum primitive (`VirtualPage::Checksum`) -/

/-- Left rotation by one of a 32-bit word, as the C expression
`(acc << 1) | (acc >> 31)` computes it on a `uint32_t`. -/
def rotl1 (a : Nat) : Nat := ((a * 2) % 2 ^ 32) ||| (a / 2 ^ 31)

/-- Modelled from the spec: the body of `VirtualPage::Checksum` is declared
at sai.hpp:85 but not defined in the available source. The accumulator loop
over the 1024 little-endian 32-bit words of a page:
`acc = rotl1(acc) ^ w[i]` for `i = 0 .. 1023`, starting from `acc = 0`.
A page is represented by its word sequence `w : Nat → Nat` (indices
`0 .. 1023` are the ones that matter). -/
def checksumAcc (w : Nat → Nat) : Nat :=
  (List.range 1024).foldl (fun acc i => rotl1 acc ^^^ w i) 0

/-- Modelled from the spec: `VirtualPage::Checksum` returns the accumulator
with the low bit forced to 1 (`acc |= 1`). -/
def Checksum (w : Nat → Nat) : Nat := checksumAcc w ||| 1

/-- The word sequence of a page with word 0 replaced by zero — the
`u32[0] = 0` step that sai.hpp:82-84 prescribes before checksumming a
table page. -/
def setWord0 (w : Nat → Nat) : Nat → Nat := fun i => if i = 0 then 0 else w i

/-- Modelled from the spec: the checksum used to verify a table page
against its self-descriptor — `Checksum` computed with word 0 treated as
zero (sai.hpp:82-84). -/
def tableChecksum (w : Nat → Nat) : Nat := Checksum (setWord0 w)

theorem lor_one_mod_two (n : Nat) : (n ||| 1) % 2 = 1 := by
  have h := Nat.testBit_lor n 1 0
  simp only [Nat.testBit_zero] at h
  rcases Nat.mod_two_eq_zero_or_one n with h2 | h2 <;>
    rcases Nat.mod_two_eq_zero_or_one (n ||| 1) with h3 | h3 <;>
      simp [h2, h3] at h ⊢

theorem rotl1_lt (a : Nat) (ha : a < 2 ^ 32) : rotl1 a < 2 ^ 32 := by
  have h1 : (a * 2) % 2 ^ 32 < 2 ^ 32 := Nat.mod_lt _ (by norm_num)
  have h2 : a / 2 ^ 31 < 2 ^ 32 := by
    have := Nat.div_le_self a (2 ^ 31)
    omega
  exact Nat.bitwise_lt h1 h2

theorem checksumAcc_lt (w : Nat → Nat) (hw : ∀ i, w i < 2 ^ 32) :
    checksumAcc w < 2 ^ 32 := by
  have key : ∀ (l : List Nat) (acc : Nat), acc < 2 ^ 32 →
      l.foldl (fun acc i => rotl1 acc ^^^ w i) acc < 2 ^ 32 := by
    intro l
    induction l with
    | nil => intro acc h; simpa using h
    | cons x xs ih =>
      intro acc h
      exact ih _ (Nat.bitwise_lt (rotl1_lt acc h) (hw x))
  exact key _ 0 (by norm_num)

/-- C1: the page checksum is the left-rotate-by-one accumulator fold over
the 1024 words with the low bit then forced to 1, hence always odd and
nonzero (and it fits in 32 bits when the words do); and the table-page
checksum treats word 0 as zero, so it does not depend on the value the
page stores in word 0 (the self-descriptor's own checksum field). -/
theorem C1_checksum_odd_nonzero (w : Nat → Nat) (hw : ∀ i, w i < 2 ^ 32) :
    Checksum w = checksumAcc w ||| 1 ∧
    Checksum w % 2 = 1 ∧ Checksum w ≠ 0 ∧ Checksum w < 2 ^ 32 ∧
    (∀ v : Nat, tableChecksum (Function.update w 0 v) = tableChecksum w) := by
  refine ⟨rfl, lor_one_mod_two _, ?_, ?_, ?_⟩
  · intro h0
    have := lor_one_mod_two (checksumAcc w)
    rw [show checksumAcc w ||| 1 = Checksum w from rfl, h0] at this
    simp at this
  · have h1 : checksumAcc w < 2 ^ 32 := checksumAcc_lt w hw
    have h2 : (1 : Nat) < 2 ^ 32 := by norm_num
    exact Nat.bitwise_lt h1 h2
  · intro v
    have hfun : setWord0 (Function.update w 0 v) = setWord0 w := by
      funext i
      by_cases hi : i = 0 <;> simp [setWord0, hi, Function.update]
    unfold tableChecksum
    rw [hfun]

theorem C1_checksum_odd_nonzero_witness :
    Checksum (fun _ => 0) % 2 = 1 ∧ Checksum (fun _ => 0) ≠ 0 ∧
    tableChecksum (Function.update (fun _ => (0 : Nat)) 0 7) =
      tableChecksum (fun _ => 0) :=
  ⟨(C1_checksum_odd_nonzero (fun _ => 0) (fun _ => by norm_num)).2.1,
   (C1_checksum_odd_nonzero (fun _ => 0) (fun _ => by norm_num)).2.2.1,
   (C1_checksum_odd_nonzero (fun _ => 0) (fun _ => by norm_num)).2.2.2.2 7⟩

/-! ## Paged-stream logical-to-physical mapping (`VirtualFileSystem::Read`) -/

/-- Modelled from the spec: the logical-to-physical page mapping used by
`VirtualFileSystem::Read` (declared at sai.hpp:222-225, body not in the
available source): `phys(d) = 1 + d + d / 511`, inserting a table page
every 511 data pages. -/
def phys (d : Nat) : Nat := 1 + d + d / 511

/-- Modelled from the spec: the byte of the logical stream at logical
offset `L`, drawn from the backing file viewed as physical pages
`page : Nat → Nat → Nat` (page index → intra-page byte offset → byte). -/
def logicalByte (page : Nat → Nat → Nat) (L : Nat) : Nat :=
  page (phys (L / 4096)) (L % 4096)

/-- Modelled from the spec: a read of `n` bytes of the logical stream
starting at logical offset `L`. -/
def readLogical (page : Nat → Nat → Nat) (L n : Nat) : List Nat :=
  (List.range n).map fun j => logicalByte page (L + j)

theorem readLogical_length (page : Nat → Nat → Nat) (L n : Nat) :
    (readLogical page L n).length = n := by
  simp [readLogical]

/-- C3: logical byte offset `L` maps to physical page `phys (L / 4096)`
with intra-page offset `L % 4096`; `phys` never lands on a table page
(an index that is a multiple of 512); and the two-byte read that crosses
from logical page 510 to logical page 511 (logical offset
`511 * 4096 - 1 = 2093055`) takes its bytes from physical pages 511 and
513 in order, skipping the physical table page 512. -/
theorem C3_logical_mapping (page : Nat → Nat → Nat) :
    (∀ L, logicalByte page L = page (phys (L / 4096)) (L % 4096)) ∧
    (∀ d, phys d % 512 ≠ 0) ∧
    readLogical page 2093055 2 = [page 511 4095, page 513 0] := by
  refine ⟨fun L => rfl, fun d => by unfold phys; omega, ?_⟩
  rfl

/-! ## FAT entry layout (`FATEntry`, sai.hpp:38-56, under `#pragma pack(1)`) -/

/-- `FATEntry::EntryType` from sai.hpp:40-44. -/
inductive EntryType where
  | Folder
  | File
deriving DecidableEq

/-- The byte value of each `FATEntry::EntryType` constant (sai.hpp:42-43). -/
def EntryType.toByte : EntryType → Nat
  | .Folder => 0x10
  | .File => 0x80

/-- The `FATEntry` field layout from sai.hpp:46-55 under `pack(1)`:
field name and byte size, in declaration order. -/
def FATEntryFields : List (String × Nat) :=
  [("Flags", 4), ("Name", 32), ("Pad1", 1), ("Pad2", 1), ("Type", 1),
   ("Pad4", 1), ("PageIndex", 4), ("Size", 4), ("TimeStamp", 8), ("UnknownB", 8)]

/-- The byte layout the claim asserts (stated for comparison with the
source layout): flags, name, 4 bytes of padding, type, 1 reserved byte,
page index, size, timestamp, 8 reserved bytes. -/
def claimedFATEntryFields : List (String × Nat) :=
  [("flags", 4), ("name", 32), ("padding", 4), ("type", 1), ("reserved", 1),
   ("page_index", 4), ("size", 4), ("timestamp", 8), ("reserved2", 8)]

/-- Total byte size of a packed field layout. -/
def layoutSize (fs : List (String × Nat)) : Nat := (fs.map Prod.snd).sum

/-- Byte offset of a named field in a packed field layout. -/
def offsetOf (fs : List (String × Nat)) (name : String) : Nat :=
  layoutSize (fs.takeWhile fun f => ¬ f.1 = name)

/-- C8 counterexample: the layout the claim describes (4 bytes of padding
before `type` plus 1 reserved byte after it) totals 66 bytes, so 64 such
records occupy 4224 bytes, not one 4096-byte page; the source layout
totals 64 bytes and differs from the claimed one. -/
theorem C8_fat_layout_counterexample :
    layoutSize claimedFATEntryFields = 66 ∧
    64 * layoutSize claimedFATEntryFields ≠ 4096 ∧
    layoutSize FATEntryFields = 64 ∧
    layoutSize claimedFATEntryFields ≠ layoutSize FATEntryFields := by
  decide

/-- C8 (amended): a FAT entry is a 64-byte packed record — flags `u32`;
32-byte zero-terminated name; 2 bytes of padding; type `u8` (`0x10`
folder, `0x80` file); 1 reserved byte; page_index `u32`; size `u32`;
timestamp `u64`; 8 reserved bytes — so 64 entries exactly fill one
4096-byte page, with the fields at offsets 0, 4, 38, 40, 44, 48. -/
theorem C8_fat_layout :
    layoutSize FATEntryFields = 64 ∧
    64 * layoutSize FATEntryFields = 4096 ∧
    offsetOf FATEntryFields "Flags" = 0 ∧
    offsetOf FATEntryFields "Name" = 4 ∧
    offsetOf FATEntryFields "Type" = 38 ∧
    offsetOf FATEntryFields "PageIndex" = 40 ∧
    offsetOf FATEntryFields "Size" = 44 ∧
    offsetOf FATEntryFields "TimeStamp" = 48 ∧
    EntryType.toByte .Folder = 0x10 ∧ EntryType.toByte .File = 0x80 := by
  decide

/-! ## File entries (`VirtualFileEntry`, sai.hpp:249-294) -/

/-- The fields of a `FATEntry` record that the file-entry operations use
(sai.hpp:46-55); `Name` is the 32-byte name field as raw bytes. -/
structure FATEntryData where
  Flags : Nat
  Name : List Nat
  PageIndex : Nat
  Size : Nat
  TimeStamp : Nat

/-- `VirtualFileEntry` state (sai.hpp:284-294): the FAT record snapshot
plus the read cursor `ReadPoint`. -/
structure VirtualFileEntry where
  FATData : FATEntryData
  ReadPoint : Nat

/-- Modelled from the spec: `VirtualFileEntry::Seek` (declared at
sai.hpp:266, body not in the available source) sets the read cursor. -/
def VirtualFileEntry.Seek (e : VirtualFileEntry) (Offset : Nat) : VirtualFileEntry :=
  { e with ReadPoint := Offset }

/-- Modelled from the spec: `VirtualFileEntry::Tell` (declared at
sai.hpp:265, body not in the available source) returns the read cursor. -/
def VirtualFileEntry.Tell (e : VirtualFileEntry) : Nat := e.ReadPoint

/-- Modelled from the spec: `VirtualFileEntry::GetTimeStamp` (declared at
sai.hpp:261, body not in the available source) exposes the FAT record's
`TimeStamp` field — a raw Windows FILETIME value (sai.hpp:54), with any
epoch conversion left to the caller. -/
def VirtualFileEntry.GetTimeStamp (e : VirtualFileEntry) : Nat :=
  e.FATData.TimeStamp

/-- Modelled from the spec: `VirtualFileEntry::Read(void*, size)`
(declared at sai.hpp:268, body not in the available source): reads through
the paged stream at logical offset `PageIndex * 4096 + ReadPoint`, clamped
to `Size - ReadPoint`, and advances the cursor by the bytes actually read.
Returns (bytes copied, byte count, new entry state). -/
def VirtualFileEntry.Read (page : Nat → Nat → Nat) (e : VirtualFileEntry)
    (Size : Nat) : List Nat × Nat × VirtualFileEntry :=
  let n := min Size (e.FATData.Size - e.ReadPoint)
  (readLogical page (e.FATData.PageIndex * 4096 + e.ReadPoint) n, n,
   { e with ReadPoint := e.ReadPoint + n })

/-- `VirtualFileEntry::Read<T>()` from sai.hpp:276-282: declares `T temp`,
calls `Read(&temp, sizeof(T))` discarding the returned byte count, and
returns `temp`. `uninit` models the indeterminate initial bytes of `temp`;
the result is the byte image of the returned `T` value plus the new entry
state — no error or count is surfaced. -/
def VirtualFileEntry.ReadTyped (page : Nat → Nat → Nat) (uninit : Nat → Nat)
    (e : VirtualFileEntry) (sizeT : Nat) : List Nat × VirtualFileEntry :=
  let r := VirtualFileEntry.Read page e sizeT
  (r.1 ++ (List.range (sizeT - r.1.length)).map uninit, r.2.2)

/-- C4: a read of length `k` through the file view copies exactly
`min k (Size - ReadPoint)` bytes (so 0 bytes once the cursor is at or past
`Size`), takes them from logical offset `PageIndex * 4096 + ReadPoint`,
and advances the cursor by exactly the number of bytes copied. -/
theorem C4_entry_read (page : Nat → Nat → Nat) (e : VirtualFileEntry) (k : Nat) :
    (VirtualFileEntry.Read page e k).2.1 = min k (e.FATData.Size - e.ReadPoint) ∧
    (VirtualFileEntry.Read page e k).1 =
      readLogical page (e.FATData.PageIndex * 4096 + e.ReadPoint)
        (min k (e.FATData.Size - e.ReadPoint)) ∧
    (VirtualFileEntry.Read page e k).2.2.ReadPoint =
      e.ReadPoint + (VirtualFileEntry.Read page e k).2.1 ∧
    (e.FATData.Size ≤ e.ReadPoint → (VirtualFileEntry.Read page e k).2.1 = 0) := by
  refine ⟨rfl, rfl, rfl, fun h => ?_⟩
  simp only [VirtualFileEntry.Read]
  omega

theorem C4_entry_read_witness :
    (VirtualFileEntry.Read (fun _ _ => 7) ⟨⟨0, [], 2, 10, 0⟩, 4⟩ 3).2.1 =
      min 3 (10 - 4) :=
  (C4_entry_read (fun _ _ => 7) ⟨⟨0, [], 2, 10, 0⟩, 4⟩ 3).1

/-- C7: after `Seek n` with `n ≤ Size`, `Tell` returns `min n Size`. -/
theorem C7_seek_tell (e : VirtualFileEntry) (n : Nat)
    (h : n ≤ e.FATData.Size) :
    (e.Seek n).Tell = min n e.FATData.Size := by
  simp [VirtualFileEntry.Seek, VirtualFileEntry.Tell, Nat.min_eq_left h]

theorem C7_seek_tell_witness :
    (VirtualFileEntry.Seek ⟨⟨0, [], 0, 5, 0⟩, 0⟩ 2).Tell = min 2 5 :=
  C7_seek_tell ⟨⟨0, [], 0, 5, 0⟩, 0⟩ 2 (by norm_num)

/-- C9: the timestamp exposed by the entry accessor is the raw `TimeStamp`
field of the FAT record (a Windows FILETIME tick count); in particular,
whatever tick value the record stores is returned unchanged, with no
epoch conversion applied. -/
theorem C9_timestamp_raw (e : VirtualFileEntry) :
    e.GetTimeStamp = e.FATData.TimeStamp ∧
    (∀ t : Nat, VirtualFileEntry.GetTimeStamp
      { e with FATData := { e.FATData with TimeStamp := t } } = t) :=
  ⟨rfl, fun _ => rfl⟩

/-- C10: when the cursor is within `sizeT` bytes of the entry's size, the
typed read still returns a full `sizeT`-byte value — the clamped prefix
read from the stream followed by indeterminate bytes — and its result
carries no byte count or error indication, only the value bytes and the
advanced entry state. -/
theorem C10_typed_read_discards_count (page : Nat → Nat → Nat)
    (uninit : Nat → Nat) (e : VirtualFileEntry) (sizeT : Nat)
    (h : e.FATData.Size - e.ReadPoint < sizeT) :
    (VirtualFileEntry.ReadTyped page uninit e sizeT).1.length = sizeT ∧
    (VirtualFileEntry.ReadTyped page uninit e sizeT).1 =
      readLogical page (e.FATData.PageIndex * 4096 + e.ReadPoint)
        (e.FATData.Size - e.ReadPoint) ++
      (List.range (sizeT - (e.FATData.Size - e.ReadPoint))).map uninit ∧
    (VirtualFileEntry.ReadTyped page uninit e sizeT).2.ReadPoint =
      e.ReadPoint + (e.FATData.Size - e.ReadPoint) := by
  have hmin : min sizeT (e.FATData.Size - e.ReadPoint) =
      e.FATData.Size - e.ReadPoint := by omega
  refine ⟨?_, ?_, ?_⟩
  · simp only [VirtualFileEntry.ReadTyped, VirtualFileEntry.Read]
    simp [readLogical_length]
  · simp only [VirtualFileEntry.ReadTyped, VirtualFileEntry.Read,
      readLogical_length, hmin]
  · simp only [VirtualFileEntry.ReadTyped, VirtualFileEntry.Read, hmin]

theorem C10_typed_read_discards_count_witness :
    (VirtualFileEntry.ReadTyped (fun _ _ => 3) (fun _ => 9)
      ⟨⟨0, [], 0, 4, 0⟩, 2⟩ 4).1.length = 4 :=
  (C10_typed_read_discards_count (fun _ _ => 3) (fun _ => 9)
    ⟨⟨0, [], 0, 4, 0⟩, 2⟩ 4 (by norm_num)).1

/-! ## Page store and table-page entries (`VirtualPage::PageEntry`,
`ifstreambuf::FetchPage`) -/

/-- Error kinds of the page store (spec §4.2/§7). -/
inductive PageError where
  | Truncated
  | CorruptPage (index : Nat)
  | CorruptTable (index : Nat)
deriving DecidableEq

/-- Modelled from the spec: the owning table page of page `N` is
`N - N % 512`. -/
def ownerTableIndex (N : Nat) : Nat := N - N % 512

/-- Modelled from the spec: the entry of the owning table page that
describes page `N` is entry `N % 512` (entry 0 when `N` is itself a
table page — the self-descriptor). -/
def tableEntryIndexOf (N : Nat) : Nat := N % 512

/-- Modelled from the spec (taking the reading consistent with the
self-descriptor rule and the glossary — a table page holds 512 entries:
its own self-descriptor at offset 0 plus one entry for each of the 511
data pages that follow): entry `i` of the table page at index `T`
describes the page at index `T + i`. -/
def pageDescribedBy (T i : Nat) : Nat := T + i

/-- A backing `.sai` file: its page count and its decrypted pages, viewed
as 32-bit words (page index → word index → word). -/
structure Backing where
  pageCount : Nat
  page : Nat → Nat → Nat

/-- The checksum field of `PageEntry` number `i` of the table page at
index `T`: each `PageEntry` is `(Checksum : u32, Flags : u32)`
(sai.hpp:70-74), so entry `i` occupies words `2 i` and `2 i + 1`. -/
def tableEntryChecksum (b : Backing) (T i : Nat) : Nat := b.page T (2 * i)

/-- Modelled from the spec: `ifstreambuf::FetchPage` (declared at
sai.hpp:144, body not in the available source). Reads page `N` (short
read when the file has no page `N` ⇒ `Truncated`); a table page
(`N % 512 = 0`) is verified against its self-descriptor with word 0
zeroed (mismatch ⇒ `CorruptTable N`); a data page is verified against
the checksum recorded in entry `N % 512` of its owning table page
`N - N % 512`, which must itself verify first (mismatches ⇒
`CorruptPage N` / `CorruptTable (N - N % 512)`). -/
def FetchPage (b : Backing) (N : Nat) : Except PageError Unit :=
  if b.pageCount ≤ N then .error .Truncated
  else if N % 512 = 0 then
    (if tableChecksum (b.page N) = tableEntryChecksum b N 0 then .ok ()
     else .error (.CorruptTable N))
  else
    (if tableChecksum (b.page (ownerTableIndex N)) =
        tableEntryChecksum b (ownerTableIndex N) 0 then
      (if Checksum (b.page N) =
          tableEntryChecksum b (ownerTableIndex N) (tableEntryIndexOf N) then
        .ok ()
       else .error (.CorruptPage N))
     else .error (.CorruptTable (ownerTableIndex N)))

/-- C2 counterexample: entry 0 of the table page at index 0 is the
self-descriptor, describing page 0 itself — not page `0 + 1 + 0 = 1` as
the claimed formula `T + 1 + i` requires; moreover, under that formula
entry 511 of table 0 would describe page `0 + 1 + 511 = 512`, which is a
table page (`512 % 512 = 0`), not a data page. -/
theorem C2_entry_formula_counterexample :
    pageDescribedBy 0 0 = 0 ∧ pageDescribedBy 0 0 ≠ 0 + 1 + 0 ∧
    (0 + 1 + 511) % 512 = 0 := by
  decide

/-- C2 (amended): for every data page `N` (`N % 512 ≠ 0`), the expected
checksum used to verify `N` is taken from its owning table page
`N - N % 512` — specifically from entry `N % 512`, which by the mapping
`entry i of table T describes page T + i` describes exactly page `N`;
entry indices of data pages lie in `1 .. 511`, and entry 0 of every
table page describes the table page itself (the self-descriptor). -/
theorem C2_table_entry_mapping (b : Backing) (N : Nat) (h : N % 512 ≠ 0) :
    ownerTableIndex N % 512 = 0 ∧
    pageDescribedBy (ownerTableIndex N) (tableEntryIndexOf N) = N ∧
    1 ≤ tableEntryIndexOf N ∧ tableEntryIndexOf N ≤ 511 ∧
    pageDescribedBy (ownerTableIndex N) 0 = ownerTableIndex N ∧
    (FetchPage b N = .ok () →
      Checksum (b.page N) =
        tableEntryChecksum b (ownerTableIndex N) (tableEntryIndexOf N)) := by
  refine ⟨?_, ?_, ?_, ?_, ?_, ?_⟩
  · unfold ownerTableIndex; omega
  · unfold pageDescribedBy ownerTableIndex tableEntryIndexOf; omega
  · unfold tableEntryIndexOf; omega
  · unfold tableEntryIndexOf; omega
  · unfold pageDescribedBy; omega
  · intro hok
    unfold FetchPage at hok
    by_cases h1 : b.pageCount ≤ N
    · rw [if_pos h1] at hok; exact absurd hok (by simp)
    · rw [if_neg h1, if_neg h] at hok
      by_cases h2 : tableChecksum (b.page (ownerTableIndex N)) =
          tableEntryChecksum b (ownerTableIndex N) 0
      · rw [if_pos h2] at hok
        by_cases h3 : Checksum (b.page N) =
            tableEntryChecksum b (ownerTableIndex N) (tableEntryIndexOf N)
        · exact h3
        · rw [if_neg h3] at hok; exact absurd hok (by simp)
      · rw [if_neg h2] at hok; exact absurd hok (by simp)

theorem C2_table_entry_mapping_witness :
    pageDescribedBy (ownerTableIndex 515) (tableEntryIndexOf 515) = 515 :=
  (C2_table_entry_mapping ⟨0, fun _ _ => 0⟩ 515 (by norm_num)).2.1

/-! ## Paged stream reads and failure behaviour (`ifstreambuf`) -/

/-- Number of data pages among the `pageCount` physical pages of the
backing file (every 512th page, starting at 0, is a table page). -/
def logicalPageCount (b : Backing) : Nat :=
  b.pageCount - (b.pageCount + 511) / 512

/-- Byte length of the logical stream. -/
def logicalSize (b : Backing) : Nat := 4096 * logicalPageCount b

/-- The logical (data) pages touched when reading `n` bytes starting at
logical offset `L` (none when `n = 0`). -/
def pagesTouched (L n : Nat) : List Nat :=
  if n = 0 then []
  else (List.range ((L + n - 1) / 4096 + 1 - L / 4096)).map fun j => L / 4096 + j

/-- Modelled from the spec: fetch and verify each needed page in order;
the first failure aborts the whole operation. -/
def fetchAll (b : Backing) : List Nat → Except PageError Unit
  | [] => .ok ()
  | d :: rest =>
    match FetchPage b (phys d) with
    | .ok _ => fetchAll b rest
    | .error e => .error e

/-- The mutable state of the paged stream: its position. -/
structure StreamState where
  pos : Nat
deriving DecidableEq

/-- Modelled from the spec: a stream read of `n` bytes at the current
position (`ifstreambuf` reads via `FetchPage`, sai.hpp:144): the length
is clamped at end-of-stream, every touched page is fetched and verified,
the bytes are copied and the position advances by the bytes copied; on
any failure (`Truncated`, `CorruptPage`, `CorruptTable`) the error is
reported and the position is left unchanged. -/
def streamRead (b : Backing) (st : StreamState) (n : Nat) :
    Except PageError (List Nat) × StreamState :=
  match fetchAll b (pagesTouched st.pos (min n (logicalSize b - st.pos))) with
  | .ok _ =>
    (.ok (readLogical b.page st.pos (min n (logicalSize b - st.pos))),
     ⟨st.pos + min n (logicalSize b - st.pos)⟩)
  | .error e => (.error e, st)

/-- C5: whenever a stream read fails — `CorruptPage` or `CorruptTable`
from verification, or `Truncated` from a short read — the operation
reports the failure and the stream position observed afterwards equals
the position before the read. -/
theorem C5_failed_read_preserves_position (b : Backing) (st : StreamState)
    (n : Nat) (e : PageError) (h : (streamRead b st n).1 = .error e) :
    (streamRead b st n).2 = st := by
  unfold streamRead at h ⊢
  cases hf : fetchAll b (pagesTouched st.pos (min n (logicalSize b - st.pos))) with
  | ok u => rw [hf] at h; simp at h
  | error e2 => rfl

theorem checksumAcc_zero (w : Nat → Nat) (hw : ∀ i, w i = 0) :
    checksumAcc w = 0 := by
  have key : ∀ l : List Nat, l.foldl (fun acc i => rotl1 acc ^^^ w i) 0 = 0 := by
    intro l
    induction l with
    | nil => rfl
    | cons x xs ih =>
      rw [List.foldl_cons, hw x]
      have : rotl1 0 ^^^ 0 = 0 := by decide
      rw [this, ih]
  exact key _

theorem tableChecksum_zero_page : tableChecksum (fun _ => (0 : Nat)) = 1 := by
  have h0 : checksumAcc (setWord0 fun _ => (0 : Nat)) = 0 :=
    checksumAcc_zero _ (fun i => by simp [setWord0])
  unfold tableChecksum Checksum
  rw [h0]
  decide

theorem streamRead_zero_backing_fails :
    (streamRead ⟨2, fun _ _ => 0⟩ ⟨5⟩ 1).1 = .error (.CorruptTable 0) := by
  have hF : FetchPage ⟨2, fun _ _ => 0⟩ (phys 0) = .error (.CorruptTable 0) := by
    unfold FetchPage
    have h1 : phys 0 = 1 := by decide
    rw [h1]
    have h2 : ¬ (Backing.pageCount ⟨2, fun _ _ => 0⟩ ≤ 1) := by decide
    rw [if_neg h2, if_neg (by decide : ¬ (1 % 512 = 0))]
    have h3 : tableChecksum (Backing.page ⟨2, fun _ _ => 0⟩ (ownerTableIndex 1)) = 1 :=
      tableChecksum_zero_page
    have h4 : tableEntryChecksum ⟨2, fun _ _ => 0⟩ (ownerTableIndex 1) 0 = 0 := rfl
    rw [if_neg (by rw [h3, h4]; decide), show ownerTableIndex 1 = 0 from rfl]
  have hpt : pagesTouched 5 (min 1 (logicalSize ⟨2, fun _ _ => 0⟩ - 5)) = [0] := by
    have : logicalSize ⟨2, fun _ _ => 0⟩ = 4096 := by decide
    rw [this]
    decide
  unfold streamRead
  rw [hpt]
  have hf : fetchAll ⟨2, fun _ _ => 0⟩ [0] = .error (.CorruptTable 0) := by
    unfold fetchAll
    rw [hF]
  rw [hf]

theorem C5_failed_read_preserves_position_witness :
    (streamRead ⟨2, fun _ _ => 0⟩ ⟨5⟩ 1).2 = (⟨5⟩ : StreamState) :=
  C5_failed_read_preserves_position ⟨2, fun _ _ => 0⟩ ⟨5⟩ 1
    (.CorruptTable 0) streamRead_zero_backing_fails

/-! ## Visitor traversal (`VirtualFileVisitor`,
`VirtualFileSystem::IterateFileSystem`) -/

/-- The three visitor callbacks of `VirtualFileVisitor` (sai.hpp:181-204),
as events carrying the visited entry's name. -/
inductive VisitEvent where
  | folderBegin (name : Nat)
  | folderEnd (name : Nat)
  | fileVisit (name : Nat)
deriving DecidableEq

/-- Modelled from the spec: the hierarchy of non-vacant FAT entries that
the FAT walker materialises (spec §4.4 — iteration of each FAT block
stops at the first vacant entry, so vacant entries never appear in the
hierarchy); a node is a file or a folder with its child list. -/
inductive FatNode where
  | file (name : Nat)
  | folder (name : Nat) (children : List FatNode)

/-- The full depth-first event sequence over a forest of FAT entries:
one `fileVisit` per file, and `folderBegin` / children / `folderEnd`
bracketing each folder. -/
def dfTrace : List FatNode → List VisitEvent
  | [] => []
  | .file n :: rest => .fileVisit n :: dfTrace rest
  | .folder n cs :: rest =>
      .folderBegin n :: (dfTrace cs ++ .folderEnd n :: dfTrace rest)

/-- Number of file entries in a forest. -/
def numFiles : List FatNode → Nat
  | [] => 0
  | .file _ :: rest => 1 + numFiles rest
  | .folder _ cs :: rest => numFiles cs + numFiles rest

/-- Number of folder entries in a forest. -/
def numFolders : List FatNode → Nat
  | [] => 0
  | .file _ :: rest => numFolders rest
  | .folder _ cs :: rest => 1 + numFolders cs + numFolders rest

def isFileVisit : VisitEvent → Bool
  | .fileVisit _ => true
  | _ => false

def isFolderBegin : VisitEvent → Bool
  | .folderBegin _ => true
  | _ => false

def isFolderEnd : VisitEvent → Bool
  | .folderEnd _ => true
  | _ => false

/-- Modelled from the spec: `VirtualFileSystem::IterateFileSystem` /
`IterateFATBlock` (declared at sai.hpp:237-244, bodies not in the
available source) driving a `VirtualFileVisitor` `v` (a callback
returning `false` requests early termination, sai.hpp:188): depth-first
over the forest, emitting `folderBegin`, the folder's children, then
`folderEnd` for folders and `fileVisit` for files; the first callback
that returns `false` stops the whole traversal. Returns the list of
events whose callbacks were invoked, in order, and whether the traversal
ran to completion. -/
def iterateF (v : VisitEvent → Bool) : List FatNode → List VisitEvent × Bool
  | [] => ([], true)
  | .file n :: rest =>
    if v (.fileVisit n) then
      ((.fileVisit n) :: (iterateF v rest).1, (iterateF v rest).2)
    else ([.fileVisit n], false)
  | .folder n cs :: rest =>
    if v (.folderBegin n) then
      (if (iterateF v cs).2 then
        (if v (.folderEnd n) then
          (.folderBegin n :: ((iterateF v cs).1 ++ .folderEnd n :: (iterateF v rest).1),
           (iterateF v rest).2)
         else (.folderBegin n :: ((iterateF v cs).1 ++ [.folderEnd n]), false))
       else (.folderBegin n :: (iterateF v cs).1, false))
    else ([.folderBegin n], false)

theorem dfTrace_count_files (l : List FatNode) :
    ((dfTrace l).filter isFileVisit).length = numFiles l := by
  induction l using dfTrace.induct with
  | case1 => simp [dfTrace, numFiles]
  | case2 n rest ih => simp [dfTrace, numFiles, isFileVisit, ih]; omega
  | case3 n cs rest ih1 ih2 =>
    simp [dfTrace, numFiles, isFileVisit, List.filter_append, ih1, ih2]

theorem dfTrace_count_folderBegin (l : List FatNode) :
    ((dfTrace l).filter isFolderBegin).length = numFolders l := by
  induction l using dfTrace.induct with
  | case1 => simp [dfTrace, numFolders]
  | case2 n rest ih => simp [dfTrace, numFolders, isFolderBegin, ih]
  | case3 n cs rest ih1 ih2 =>
    simp [dfTrace, numFolders, isFolderBegin, List.filter_append, ih1, ih2]
    omega

theorem dfTrace_count_folderEnd (l : List FatNode) :
    ((dfTrace l).filter isFolderEnd).length = numFolders l := by
  induction l using dfTrace.induct with
  | case1 => simp [dfTrace, numFolders]
  | case2 n rest ih => simp [dfTrace, numFolders, isFolderEnd, ih]
  | case3 n cs rest ih1 ih2 =>
    simp [dfTrace, numFolders, isFolderEnd, List.filter_append, ih1, ih2]
    omega

theorem iterateF_complete (v : VisitEvent → Bool) (l : List FatNode)
    (h : (iterateF v l).2 = true) :
    (iterateF v l).1 = dfTrace l ∧ ∀ e ∈ (iterateF v l).1, v e = true := by
  induction l using dfTrace.induct with
  | case1 => simp [iterateF, dfTrace]
  | case2 n rest ih =>
    by_cases hv : v (.fileVisit n)
    · rw [iterateF, if_pos hv] at h ⊢
      simp only at h
      obtain ⟨h1, h2⟩ := ih h
      simp [dfTrace, h1, hv]
      intro e he
      exact h2 e (h1 ▸ he)
    · rw [iterateF, if_neg hv] at h
      simp at h
  | case3 n cs rest ih1 ih2 =>
    by_cases hv : v (.folderBegin n)
    · rw [iterateF, if_pos hv] at h ⊢
      by_cases hc : (iterateF v cs).2
      · rw [if_pos hc] at h ⊢
        by_cases he : v (.folderEnd n)
        · rw [if_pos he] at h ⊢
          simp only at h
          obtain ⟨hr1, hr2⟩ := ih2 h
          obtain ⟨hc1, hc2⟩ := ih1 hc
          constructor
          · simp [dfTrace, hc1, hr1]
          · intro e hmem
            simp at hmem
            rcases hmem with h | h | h | h
            · subst h; exact hv
            · exact hc2 e h
            · subst h; exact he
            · exact hr2 e h
        · rw [if_neg he] at h
          simp at h
      · rw [if_neg hc] at h
        simp at h
    · rw [iterateF, if_neg hv] at h
      simp at h

theorem iterateF_abort (v : VisitEvent → Bool) (l : List FatNode)
    (h : (iterateF v l).2 = false) :
    ∃ pre last, (iterateF v l).1 = pre ++ [last] ∧
      (∀ e ∈ pre, v e = true) ∧ v last = false := by
  induction l using dfTrace.induct with
  | case1 => simp [iterateF] at h
  | case2 n rest ih =>
    by_cases hv : v (.fileVisit n)
    · rw [iterateF, if_pos hv] at h ⊢
      simp only at h
      obtain ⟨pre, last, h1, h2, h3⟩ := ih h
      refine ⟨.fileVisit n :: pre, last, by simp [h1], ?_, h3⟩
      intro e he
      rcases List.mem_cons.1 he with rfl | he
      · exact hv
      · exact h2 e he
    · rw [iterateF, if_neg hv]
      exact ⟨[], .fileVisit n, rfl, by simp, by simpa using hv⟩
  | case3 n cs rest ih1 ih2 =>
    by_cases hv : v (.folderBegin n)
    · rw [iterateF, if_pos hv] at h ⊢
      by_cases hc : (iterateF v cs).2 = true
      · rw [if_pos hc] at h ⊢
        obtain ⟨hc1, hc2⟩ := iterateF_complete v cs hc
        by_cases he : v (.folderEnd n)
        · rw [if_pos he] at h ⊢
          simp only at h
          obtain ⟨pre, last, h1, h2, h3⟩ := ih2 h
          refine ⟨.folderBegin n :: ((iterateF v cs).1 ++ .folderEnd n :: pre),
            last, by simp [h1], ?_, h3⟩
          intro e he2
          simp only [List.mem_cons, List.mem_append] at he2
          rcases he2 with rfl | he2 | rfl | he2
          · exact hv
          · exact hc2 e he2
          · exact he
          · exact h2 e he2
        · rw [if_neg he]
          refine ⟨.folderBegin n :: (iterateF v cs).1, .folderEnd n,
            by simp, ?_, by simpa using he⟩
          intro e he2
          rcases List.mem_cons.1 he2 with rfl | he2
          · exact hv
          · exact hc2 e he2
      · rw [if_neg hc] at h ⊢
        obtain ⟨pre, last, h1, h2, h3⟩ := ih1 (by simpa using hc)
        refine ⟨.folderBegin n :: pre, last, by simp [h1], ?_, h3⟩
        intro e he2
        rcases List.mem_cons.1 he2 with rfl | he2
        · exact hv
        · exact h2 e he2
    · rw [iterateF, if_neg hv]
      exact ⟨[], .folderBegin n, rfl, by simp, by simpa using hv⟩

theorem iterateF_isPrefix (v : VisitEvent → Bool) (l : List FatNode) :
    (iterateF v l).1 <+: dfTrace l := by
  induction l using dfTrace.induct with
  | case1 => simp [iterateF, dfTrace]
  | case2 n rest ih =>
    by_cases hv : v (.fileVisit n)
    · rw [iterateF, if_pos hv, dfTrace]
      obtain ⟨t, ht⟩ := ih
      exact ⟨t, by simp [← ht]⟩
    · rw [iterateF, if_neg hv, dfTrace]
      exact ⟨dfTrace rest, rfl⟩
  | case3 n cs rest ih1 ih2 =>
    by_cases hv : v (.folderBegin n)
    · rw [iterateF, if_pos hv, dfTrace]
      by_cases hc : (iterateF v cs).2 = true
      · rw [if_pos hc]
        obtain ⟨hc1, _⟩ := iterateF_complete v cs hc
        by_cases he : v (.folderEnd n)
        · rw [if_pos he]
          obtain ⟨t, ht⟩ := ih2
          exact ⟨t, by simp [hc1, ← ht]⟩
        · rw [if_neg he]
          exact ⟨dfTrace rest, by simp [hc1]⟩
      · rw [if_neg hc]
        obtain ⟨t, ht⟩ := ih1
        exact ⟨t ++ .folderEnd n :: dfTrace rest, by simp [← ht]⟩
    · rw [iterateF, if_neg hv, dfTrace]
      exact ⟨dfTrace cs ++ .folderEnd n :: dfTrace rest, rfl⟩

/-- C6: when every callback returns true the traversal's event trace is
exactly the depth-first trace `dfTrace` — `folderBegin` / children /
`folderEnd` for each folder, `fileVisit` for each file — which contains
one `fileVisit` per file entry and one `folderBegin` and one `folderEnd`
per folder entry of the (non-vacant) hierarchy; for any visitor the
invoked callbacks form a prefix of the depth-first trace, every callback
except possibly the final one returned true, and when the traversal was
cut short the final invoked callback is the one that returned false —
no callback of any kind follows it. -/
theorem C6_visitor_traversal (v : VisitEvent → Bool) (l : List FatNode) :
    ((iterateF v l).2 = true → (iterateF v l).1 = dfTrace l ∧
      ∀ e ∈ (iterateF v l).1, v e = true) ∧
    (iterateF v l).1 <+: dfTrace l ∧
    ((iterateF v l).2 = false → ∃ pre last, (iterateF v l).1 = pre ++ [last] ∧
      (∀ e ∈ pre, v e = true) ∧ v last = false) ∧
    ((dfTrace l).filter isFileVisit).length = numFiles l ∧
    ((dfTrace l).filter isFolderBegin).length = numFolders l ∧
    ((dfTrace l).filter isFolderEnd).length = numFolders l :=
  ⟨iterateF_complete v l, iterateF_isPrefix v l, iterateF_abort v l,
   dfTrace_count_files l, dfTrace_count_folderBegin l,
   dfTrace_count_folderEnd l⟩

theorem C6_visitor_traversal_witness :
    (iterateF (fun _ => true) [.folder 0 [.file 1], .file 2]).1 =
      dfTrace [.folder 0 [.file 1], .file 2] :=
  ((C6_visitor_traversal (fun _ => true) [.folder 0 [.file 1], .file 2]).1
    (by simp [iterateF])).1
